import Mathlib

/-!
Verification of the note-editor controller of the juswriteit repository.

The development shallowly embeds the data model and the operations of
`src/note.rs` and of the signal handlers in `src/ui.rs`.  File-system
effects are represented by a `Store` of oracles: each oracle gives the
outcome that the corresponding OS call would produce at the moment the
handler runs.  GTK side effects (editor text, status bar, dialogs, list
refresh) are recorded as an explicit `Effect` trace.  The debounced
auto-save scheduler of `src/utils.rs` is modelled by a list of live
timers carried in the UI state: `schedule_auto_save` appends a
`(handle, snapshot)` pair, cancelling removes it, and a single-shot
timer removes itself when it fires.

Rust strings are modelled as Lean `String`; where the code indexes by
UTF-8 bytes (`title_text.len()`, `&title_text[0..47]`) the model uses
`Char.utf8Size` so that byte-boundary behaviour, including the panic of
a byte slice at a non-boundary index, is represented faithfully (the
panic is modelled as `none`).
-/

deriving instance DecidableEq for Except

/-- A file path, as a plain string. -/
abbrev FsPath := String

/-- `notes_dir.join(format!("{}.md", title))` (ui.rs / note.rs). -/
def mdPath (dir title : String) : FsPath := dir ++ "/" ++ title ++ ".md"

/-- The `Note` struct of note.rs (lines 9-14).  `modified_time` models
`Option<SystemTime>`; a timestamp is a natural number. -/
structure Note where
  path : FsPath
  title : String
  content : String
  modified_time : Option Nat
deriving DecidableEq

/-- Encodes the `Ord` instance of `Option<SystemTime>` (`None` sorts
below every `Some`) into `Nat`, so `okey a ≤ okey b` iff `a ≤ b` in the
Rust ordering used by `Note::get_all`. -/
def okey : Option Nat → Nat
  | none => 0
  | some t => t + 1

/-- Splits a character list at every separator selected by `p`,
keeping empty segments (the splitting scheme underlying the Rust
splitting adapters). -/
def splitOnPred (p : Char → Bool) : List Char → List (List Char)
  | [] => [[]]
  | c :: cs =>
    let r := splitOnPred p cs
    if p c then [] :: r
    else
      match r with
      | [] => [[c]]
      | g :: gs => (c :: g) :: gs

/-- Splits at every occurrence of the character `sep`. -/
def splitOnChar (sep : Char) (l : List Char) : List (List Char) :=
  splitOnPred (fun c => c == sep) l

/-- Rust `str::trim`: removes leading and trailing whitespace
(whitespace as recognised by `Char.isWhitespace`). -/
def rustTrim (s : String) : String :=
  String.mk (((s.data.dropWhile Char.isWhitespace).reverse.dropWhile
    Char.isWhitespace).reverse)

/-- Rust `str::starts_with` for a string pattern. -/
def strStartsWith (s pre : String) : Bool := pre.data.isPrefixOf s.data

/-- Oracles giving the outcome each OS call would produce at the moment
the modelled operation runs.  Error values are the strings the `map_err`
formatters receive. -/
structure Store where
  createFile : FsPath → Except String Unit
  writeFile : FsPath → String → Except String Unit
  metaMtime : FsPath → Except String (Option Nat)
  openFile : FsPath → Except String Unit
  readFile : FsPath → Except String String
  removeFile : FsPath → Except String Unit
  renameFile : FsPath → FsPath → Except String Unit
  pathExists : FsPath → Bool
  readDir : Except String (List FsPath)
  isFile : FsPath → Bool

/-- Last path component (the file name), for `Path::file_stem`. -/
def fileNameOf (p : FsPath) : String := String.mk ((splitOnChar '/' p.data).getLastD [])

/-- Splits a list of characters at its last dot: `some (before, after)`
when a dot occurs, `none` otherwise. -/
def splitAtLastDot : List Char → Option (List Char × List Char)
  | [] => none
  | c :: cs =>
    match splitAtLastDot cs with
    | some (pre, ext) => some (c :: pre, ext)
    | none => if c = '.' then some ([], cs) else none

/-- `Path::file_stem`: the file name up to its last dot; a name whose
only dot is leading (a hidden file) is its own stem; an empty name has
no stem. -/
def fileStem (p : FsPath) : Option String :=
  let name := fileNameOf p
  if name = "" then none
  else
    match splitAtLastDot name.data with
    | some (pre, _) => if pre = [] then some name else some (String.mk pre)
    | none => some name

/-- `Path::extension`: the part after the last dot of the file name,
none for a hidden file whose only dot is leading. -/
def fileExtension (p : FsPath) : Option String :=
  match splitAtLastDot (fileNameOf p).data with
  | some (pre, ext) => if pre = [] then none else some (String.mk ext)
  | none => none

/-- `Note::new` (note.rs lines 18-37): creates an empty file named
`{title}.md` in the notes directory and returns the fresh note.  The
code performs no validation of `title`. -/
def Note.new (s : Store) (dir : String) (title : String) : Except String Note :=
  let file_path := mdPath dir title
  match s.createFile file_path with
  | .error e => .error ("Failed to create note file: " ++ e)
  | .ok _ =>
    match s.metaMtime file_path with
    | .error e => .error ("Failed to get metadata for new note: " ++ e)
    | .ok mt => .ok { path := file_path, title := title, content := "", modified_time := mt }

/-- `Note::load` (note.rs lines 40-66). -/
def Note.load (s : Store) (p : FsPath) : Except String Note :=
  match fileStem p with
  | none => .error ("Invalid note filename: " ++ p)
  | some title =>
    match s.openFile p with
    | .error e => .error ("Failed to open note file: " ++ e)
    | .ok _ =>
      match s.readFile p with
      | .error e => .error ("Failed to read note content: " ++ e)
      | .ok content =>
        match s.metaMtime p with
        | .error e => .error ("Failed to get metadata for note: " ++ e)
        | .ok mt => .ok { path := p, title := title, content := content, modified_time := mt }

/-- `Note::save` (note.rs lines 69-82): truncate + rewrite, then refresh
`modified_time` from the file metadata.  On any error the in-memory note
is unchanged (the caller keeps the old value). -/
def Note.save (s : Store) (n : Note) : Except String Note :=
  match s.createFile n.path with
  | .error e => .error ("Failed to create note file: " ++ e)
  | .ok _ =>
    match s.writeFile n.path n.content with
    | .error e => .error ("Failed to write note content: " ++ e)
    | .ok _ =>
      match s.metaMtime n.path with
      | .error e => .error ("Failed to get metadata after saving: " ++ e)
      | .ok mt => .ok { n with modified_time := mt }

/-- `Note::delete` (note.rs lines 85-88). -/
def Note.delete (s : Store) (n : Note) : Except String Unit :=
  match s.removeFile n.path with
  | .error e => .error ("Failed to delete note: " ++ e)
  | .ok _ => .ok ()

/-- `Note::rename` (note.rs lines 91-120).  Returns the outcome together
with the note as mutated so far (Rust mutates `&mut self` in place, so a
late metadata failure leaves `path`/`title` already updated). -/
def Note.rename (s : Store) (dir : String) (n : Note) (new_title : String) :
    Except String Unit × Note :=
  if rustTrim new_title = "" then (.error "New title cannot be empty.", n)
  else
    let new_path := mdPath dir new_title
    if s.pathExists new_path && new_path != n.path then
      (.error ("A note named \"" ++ new_title ++ "\" already exists."), n)
    else
      match s.renameFile n.path new_path with
      | .error e => (.error ("Failed to rename note file: " ++ e), n)
      | .ok _ =>
        let n1 := { n with path := new_path, title := new_title }
        match s.metaMtime new_path with
        | .error e => (.error ("Failed to get metadata after renaming: " ++ e), n1)
        | .ok mt => (.ok (), { n1 with modified_time := mt })

/-- Eligibility test of `Note::get_all`: a regular file with `.md`
extension (note.rs line 135). -/
def eligibleEntry (s : Store) (p : FsPath) : Bool :=
  s.isFile p && (fileExtension p == some "md")

/-- Inserts `x` after every leading element `y` with `le y x`: the
insertion step of a stable insertion sort. -/
def insertSorted {α : Type} (le : α → α → Bool) (x : α) : List α → List α
  | [] => [x]
  | y :: ys => if le y x then y :: insertSorted le x ys else x :: y :: ys

/-- Stable sort by the total preorder `le`: elements comparing equal
keep their input order, so this agrees extensionally with any stable
sorting algorithm, in particular with the stable Rust `sort_by`. -/
def sortByStable {α : Type} (le : α → α → Bool) (l : List α) : List α :=
  l.foldl (fun acc x => insertSorted le x acc) []

/-- `Note::get_all` (note.rs lines 123-151): read the directory, load
every eligible entry, skip entries whose load fails, and stable-sort by
`modified_time` descending (`b.modified_time.cmp(&a.modified_time)`). -/
def Note.get_all (s : Store) : Except String (List Note) :=
  match s.readDir with
  | .error e => .error ("Failed to read notes directory: " ++ e)
  | .ok entries =>
    let notes := entries.filterMap fun p =>
      if eligibleEntry s p then (Note.load s p).toOption else none
    .ok (sortByStable (fun a b => okey b.modified_time ≤ okey a.modified_time) notes)

/-- The candidate title the `generate_unique_title` loop tries at
counter value `n`: `"Note {date}"` for the initial `n = 1`, and
`"Note {date} ({n})"` afterwards (note.rs lines 159-166). -/
def candidateTitle (date : String) (n : Nat) : String :=
  if n = 1 then "Note " ++ date else "Note " ++ date ++ " (" ++ Nat.repr n ++ ")"

/-- The `while` loop of `Note::generate_unique_title` (note.rs lines
162-166), with the existence check `notes_dir.join(...).exists()`
modelled by membership of the title in the finite list of titles whose
`.md` files exist.  `fuel` bounds the number of iterations; the lemma
`genLoop_adequate` below shows `existing.length + 1` iterations always
reach a free title, so the bound never cuts the loop short. -/
def genLoop (existing : List String) (date : String) : Nat → Nat → String
  | 0, n => candidateTitle date n
  | fuel + 1, n =>
    if candidateTitle date n ∈ existing then genLoop existing date fuel (n + 1)
    else candidateTitle date n

/-- `Note::generate_unique_title` (note.rs lines 154-169), as a function
of the existing title set and the formatted current date. -/
def Note.generate_unique_title (existing : List String) (date : String) : String :=
  genLoop existing date (existing.length + 1) 1

/-- `Note::is_empty` (note.rs lines 173-175). -/
def Note.is_empty (n : Note) : Bool := rustTrim n.content == ""

/-- `Note::has_default_title` (note.rs lines 225-227). -/
def Note.has_default_title (n : Note) : Bool := strStartsWith n.title "Note 20"

/-- UTF-8 byte length of a character list (Rust `str::len`). -/
def byteLen (l : List Char) : Nat := (l.map Char.utf8Size).sum

/-- The byte slice `&s[0..k]` of Rust: `some` prefix when `k` bytes fall
on a character boundary, `none` (a panic) otherwise. -/
def takeBytes : Nat → List Char → Option (List Char)
  | 0, _ => some []
  | _ + 1, [] => none
  | k + 1, c :: cs =>
    if c.utf8Size ≤ k + 1 then (takeBytes (k + 1 - c.utf8Size) cs).map (c :: ·)
    else none

/-- Rust `str::lines`: split on a newline, stripping a carriage return
left at the end of a segment by a CRLF terminator. -/
def rustLines (s : String) : List String :=
  (splitOnChar '\n' s.data).map fun l =>
    String.mk (if l.getLast? = some '\r' then l.dropLast else l)

/-- The first non-blank line of the content (ui.rs line 625 /
note.rs lines 205-207). -/
def firstNonBlankLine (s : String) : Option String :=
  (rustLines s).find? fun l => !(rustTrim l == "")

/-- The inline candidate-title computation of `buffer.connect_changed`
(ui.rs lines 623-639): `some none` when no candidate is derived,
`some (some c)` for candidate `c`, and `none` when the byte slice
`&title_text[0..47]` panics because byte 47 is not a character
boundary.  Lengths are UTF-8 byte counts, as in Rust. -/
def titleCandidate (content : String) : Option (Option String) :=
  match firstNonBlankLine content with
  | none => some none
  | some first_line =>
    let title_text := rustTrim first_line
    if 3 ≤ byteLen title_text.data then
      if 50 < byteLen title_text.data then
        match takeBytes 47 title_text.data with
        | none => none
        | some pre => some (some (String.mk pre ++ "..."))
      else some (some title_text)
    else some none

/-- `Note::generate_title_from_content` (note.rs lines 203-222), with
the same panic modelling for `&title[0..47]`.  (The live UI handler uses
the inline copy `titleCandidate`; the two agree on the truncation.) -/
def Note.generate_title_from_content (n : Note) : Option (Option String) :=
  match firstNonBlankLine n.content with
  | none => some none
  | some first_line =>
    let title := rustTrim first_line
    if 50 < byteLen title.data then
      match takeBytes 47 title.data with
      | none => none
      | some pre => some (some (String.mk pre ++ "..."))
    else if byteLen title.data < 3 then some none
    else some (some title)

/-- `count_words` (ui.rs lines 888-890): `split_whitespace().count()`. -/
def count_words (text : String) : Nat :=
  (((splitOnPred Char.isWhitespace text.data)).filter fun w => !w.isEmpty).length

/-- The `ActiveNote` struct of ui.rs (lines 19-25): the working copy
bound to the editor.  `auto_save_source_id` is the pending scheduler
handle (`Option<glib::SourceId>`). -/
structure ActiveNote where
  path : FsPath
  title : String
  has_changes : Bool
  auto_save_source_id : Option Nat
  note : Note
deriving DecidableEq

/-- Observable side effects of the handlers: store calls and View-Sync
outputs, in the order the code performs them. -/
inductive Effect where
  | setEditorText (text : String)
  | setWindowTitle (text : String)
  | setStatus (text : String)
  | setWordCount (n : Nat)
  | refreshList
  | selectRow (title : String)
  | showErrorDialog (title message : String)
  | cancelTimer (id : Nat)
  | scheduleTimer (id : Nat) (snapshot : Note)
  | saveCall (path : FsPath)
  | loadCall (path : FsPath)
  | deleteCall (path : FsPath)
  | renameCall (path : FsPath) (newTitle : String)
deriving DecidableEq

/-- UI-side state: the shared `active_note` cell, the set of live
scheduler timers together with the value snapshot each callback
captured, and a counter producing fresh handles. -/
structure UIState where
  active : Option ActiveNote
  liveTimers : List (Nat × Note)
  nextTimerId : Nat
deriving DecidableEq

/-- Removes a cancelled handle from the live timer set
(`source_id.remove()`). -/
def removeTimer (timers : List (Nat × Note)) (id : Nat) : List (Nat × Note) :=
  timers.filter fun t => t.1 != id

/-- The window title `format!("{} - {}", APP_NAME, title)`. -/
def appWindowTitle (title : String) : String := "Penscript - " ++ title

/-- The synchronous flush at the top of `list_box.connect_row_selected`
(ui.rs lines 456-505): if the active note has changes, cancel any
pending timer and save; `.error` is the early `return` taken when the
save fails, `.ok` continues into the selection logic. -/
def selectFlush (s : Store) (st : UIState) : Except (UIState × List Effect) (UIState × List Effect) :=
  match st.active with
  | none => .ok (st, [])
  | some a =>
    let ceff : List Effect := match a.auto_save_source_id with
      | some id => [Effect.cancelTimer id]
      | none => []
    let timers := match a.auto_save_source_id with
      | some id => removeTimer st.liveTimers id
      | none => st.liveTimers
    if a.has_changes then
      match Note.save s a.note with
      | .ok note2 =>
        .ok ({ st with
                active := some { a with has_changes := false, note := note2,
                                        auto_save_source_id := none },
                liveTimers := timers },
             ceff ++ [Effect.saveCall a.note.path, Effect.setStatus "Saved",
                      Effect.refreshList, Effect.selectRow a.title])
      | .error e =>
        .error ({ st with active := some { a with auto_save_source_id := none },
                          liveTimers := timers },
                ceff ++ [Effect.saveCall a.note.path,
                         Effect.showErrorDialog "Save Error"
                           ("Failed to save changes to note '" ++ a.title ++
                            "' before switching: " ++ e ++
                            ". Your changes were NOT saved. Please try again or check permissions/disk space.")])
    else
      .ok ({ st with active := some { a with auto_save_source_id := none },
                     liveTimers := timers }, ceff)

/-- `list_box.connect_row_selected` (ui.rs lines 454-576).  `row` is the
title shown by the newly selected row, `none` for a deselection. -/
def onRowSelected (s : Store) (dir : String) (st : UIState) (row : Option String) :
    UIState × List Effect :=
  match selectFlush s st with
  | .error r => r
  | .ok (st1, effs) =>
    match row with
    | some title =>
      let p := mdPath dir title
      match Note.load s p with
      | .ok note =>
        ({ st1 with active := some { path := p, title := title, has_changes := false,
                                     auto_save_source_id := none, note := note } },
         effs ++ [Effect.loadCall p, Effect.setEditorText note.content,
                  Effect.setWindowTitle (appWindowTitle title), Effect.setStatus "Ready",
                  Effect.setWordCount (count_words note.content)])
      | .error _ =>
        ({ st1 with active := none },
         effs ++ [Effect.loadCall p, Effect.setEditorText "",
                  Effect.setWindowTitle "Penscript", Effect.setStatus "Error loading note"])
    | none =>
      ({ st1 with active := none },
       effs ++ [Effect.setEditorText "", Effect.setWindowTitle "JustWrite",
                Effect.setStatus "Ready", Effect.setWordCount 0])

/-- `buffer.connect_changed` (ui.rs lines 589-733).  `programmatic` is
the thread-local `PROGRAMMATIC_TEXT_CHANGE` flag; `content` the full
buffer text.  The result is `none` when the inline candidate-title
computation panics on a byte slice at a non-boundary index (ui.rs line
629); otherwise the updated state and effect trace.  The computed
candidate feeds only the `_update_title`/`_new_title` flags, whose
consumer (ui.rs lines 701-732) is commented out, so no rename is
performed.  Scheduling (ui.rs lines 654-696 via `schedule_auto_save`)
snapshots the working copy by value and registers a fresh single-shot
timer. -/
def onBufferChanged (st : UIState) (programmatic : Bool) (content : String) :
    Option (UIState × List Effect) :=
  if programmatic then some (st, [])
  else
    let wc := Effect.setWordCount (count_words content)
    match st.active with
    | none => some (st, [wc])
    | some a =>
      let a1 := { a with has_changes := true, note := { a.note with content := content } }
      let ceff : List Effect := match a.auto_save_source_id with
        | some id => [Effect.cancelTimer id]
        | none => []
      let timers := match a.auto_save_source_id with
        | some id => removeTimer st.liveTimers id
        | none => st.liveTimers
      let candidate : Option (Option String) :=
        if strStartsWith a1.note.title "Note 20" then titleCandidate content else some none
      match candidate with
      | none => none
      | some _ =>
        let id := st.nextTimerId
        let snapshot := a1.note
        some ({ active := some { a1 with auto_save_source_id := some id },
                liveTimers := timers ++ [(id, snapshot)],
                nextTimerId := id + 1 },
              [wc, Effect.setStatus "Editing..."] ++ ceff ++ [Effect.scheduleTimer id snapshot])

/-- The auto-save timer callback (ui.rs lines 654-696), fired with the
value snapshot captured at schedule time.  The single-shot timer removes
itself from the live set (`ControlFlow::Break` in `schedule_auto_save`,
utils.rs lines 42-51). -/
def autoSaveFire (s : Store) (st : UIState) (id : Nat) (snapshot : Note) :
    UIState × List Effect :=
  let st0 := { st with liveTimers := removeTimer st.liveTimers id }
  match Note.save s snapshot with
  | .error _ => (st0, [Effect.saveCall snapshot.path, Effect.setStatus "Auto-save failed"])
  | .ok snap2 =>
    let effs := [Effect.saveCall snapshot.path, Effect.setStatus "Auto-saved"]
    match st0.active with
    | none => (st0, effs)
    | some a =>
      if a.path = snapshot.path then
        let contentEq := a.note.content = snapshot.content
        let needsRefresh := contentEq ∧ a.has_changes = true
        let a2 := { a with
          note := { a.note with modified_time := snap2.modified_time },
          has_changes := if contentEq then false else a.has_changes,
          auto_save_source_id := none }
        ({ st0 with active := some a2 },
         effs ++ if needsRefresh then [Effect.refreshList, Effect.selectRow a2.title] else [])
      else (st0, effs)

/-- The confirmed branch of `delete_button.connect_clicked` (ui.rs lines
1176-1208): load the note by title, delete its file, refresh the list,
and clear the session if the deleted title was the active one.  The live
timer set is not touched: dropping the `ActiveNote` drops its
`SourceId` without `remove()`. -/
def onDeleteConfirmed (s : Store) (dir : String) (st : UIState) (title : String) :
    UIState × List Effect :=
  let p := mdPath dir title
  match Note.load s p with
  | .error _ => (st, [Effect.loadCall p])
  | .ok note =>
    match Note.delete s note with
    | .error _ =>
      (st, [Effect.loadCall p, Effect.deleteCall note.path,
            Effect.showErrorDialog "Delete Failed" "Could not delete the note."])
    | .ok _ =>
      let effs := [Effect.loadCall p, Effect.deleteCall note.path, Effect.refreshList]
      match st.active with
      | some a =>
        if a.title = title then
          ({ st with active := none },
           effs ++ [Effect.setEditorText "", Effect.setWindowTitle "Penscript",
                    Effect.setStatus "Ready", Effect.setWordCount 0])
        else (st, effs)
      | none => (st, effs)

/-- Decimal value of a digit character. -/
def dval (c : Char) : Nat := c.toNat - '0'.toNat

/-- Reads a digit string back into a number, most significant first,
starting from accumulator `a`. -/
def vfold (a : Nat) (l : List Char) : Nat := l.foldl (fun x c => 10 * x + dval c) a

/-- Appends the decimal digits of `n` to the accumulator `a`. -/
def pushDigits (a : Nat) (n : Nat) : Nat :=
  if n < 10 then 10 * a + n
  else 10 * pushDigits a (n / 10) + n % 10
termination_by n
decreasing_by exact Nat.div_lt_self (by omega) (by omega)

/-- A store in which every operation succeeds: metadata reports
timestamp 7, reads return "hello", the target of a rename is free, and
the directory is empty. -/
def okStore : Store where
  createFile := fun _ => .ok ()
  writeFile := fun _ _ => .ok ()
  metaMtime := fun _ => .ok (some 7)
  openFile := fun _ => .ok ()
  readFile := fun _ => .ok "hello"
  removeFile := fun _ => .ok ()
  renameFile := fun _ _ => .ok ()
  pathExists := fun _ => false
  readDir := .ok []
  isFile := fun _ => true

/-- A store whose writes fail: `File::create` reports a full disk. -/
def failWriteStore : Store :=
  { okStore with createFile := fun _ => .error "disk full" }

/-- The typed content of the spec scenario (65 ASCII bytes). -/
def scenarioContent : String :=
  "Hello world this is a longer first line used as a title candidate"

/-- An empty session, used to instantiate the C9 theorem. -/
def emptySession : UIState := { active := none, liveTimers := [], nextTimerId := 0 }

/-- A first line of 26 two-byte characters: 52 UTF-8 bytes, more than
50, with no character boundary at byte 47. -/
def overlongAccentLine : String := String.mk (List.replicate 26 'é')

/-- A session editing a default-titled note, used for the C10 and C3
counterexamples. -/
def defaultTitledNote : Note :=
  { path := "notes/Note 2024-06-01.md", title := "Note 2024-06-01", content := "",
    modified_time := some 1 }

/-- Session state with `defaultTitledNote` active, clean, no timer. -/
def defaultTitledActive : ActiveNote :=
  { path := "notes/Note 2024-06-01.md", title := "Note 2024-06-01", has_changes := false,
    auto_save_source_id := none, note := defaultTitledNote }

def defaultTitledSession : UIState :=
  { active := some defaultTitledActive, liveTimers := [], nextTimerId := 0 }

/-- The value snapshot the scheduler captures in the C3 counterexample:
the working copy after the edit. -/
def c3Snapshot : Note := { defaultTitledNote with content := scenarioContent }

/-- The state and trace the changed handler produces at the C3
counterexample input: the edit is recorded and an auto-save scheduled,
the title is unchanged, and no rename call appears. -/
def c3ActiveAfter : ActiveNote :=
  { path := "notes/Note 2024-06-01.md", title := "Note 2024-06-01", has_changes := true,
    auto_save_source_id := some 0, note := c3Snapshot }

def c3Result : UIState × List Effect :=
  ({ active := some c3ActiveAfter, liveTimers := [(0, c3Snapshot)], nextTimerId := 1 },
   [Effect.setWordCount 13, Effect.setStatus "Editing...", Effect.scheduleTimer 0 c3Snapshot])

/-- A dirty working copy of note "A" with a pending edit. -/
def dirtyNoteA : Note :=
  { path := "notes/A.md", title := "A", content := "pending edit", modified_time := some 1 }

/-- The active record for `dirtyNoteA`: dirty, timer handle 0 pending. -/
def dirtyActiveA : ActiveNote :=
  { path := "notes/A.md", title := "A", has_changes := true, auto_save_source_id := some 0,
    note := dirtyNoteA }

/-- A session editing `dirtyNoteA`, with the scheduled timer live. -/
def dirtySessionA : UIState :=
  { active := some dirtyActiveA, liveTimers := [(0, dirtyNoteA)], nextTimerId := 1 }

/-- The active record after the failed flush: identical but for the
cleared timer handle. -/
def dirtyActiveANoTimer : ActiveNote :=
  { path := "notes/A.md", title := "A", has_changes := true, auto_save_source_id := none,
    note := dirtyNoteA }

/-- Working copy of note "D" after further typing ("new"). -/
def c4DivNote : Note :=
  { path := "notes/D.md", title := "D", content := "new", modified_time := some 1 }

/-- The stale snapshot ("old") a previously scheduled callback holds. -/
def c4DivSnapshot : Note :=
  { path := "notes/D.md", title := "D", content := "old", modified_time := some 1 }

/-- Session on "D": dirty, newest timer handle 5; handle 3 is the stale
one about to fire. -/
def c4DivActive : ActiveNote :=
  { path := "notes/D.md", title := "D", has_changes := true, auto_save_source_id := some 5,
    note := c4DivNote }

def c4DivState : UIState :=
  { active := some c4DivActive, liveTimers := [(3, c4DivSnapshot), (5, c4DivNote)],
    nextTimerId := 6 }

/-- A clean-content session used to instantiate the C4 theorem. -/
def c4EqNote : Note :=
  { path := "notes/E.md", title := "E", content := "same", modified_time := some 1 }

def c4EqActive : ActiveNote :=
  { path := "notes/E.md", title := "E", has_changes := true, auto_save_source_id := some 2,
    note := c4EqNote }

def c4EqState : UIState :=
  { active := some c4EqActive, liveTimers := [(2, c4EqNote)], nextTimerId := 3 }

/-- The snapshot after a successful save through `okStore`. -/
def c4EqSnap2 : Note :=
  { path := "notes/E.md", title := "E", content := "same", modified_time := some 7 }

def c4EqActiveAfter : ActiveNote :=
  { path := "notes/E.md", title := "E", has_changes := false, auto_save_source_id := none,
    note := c4EqSnap2 }

/-- The session state after deleting "A" while a timer was pending: the
session is cleared, but the live timer set still holds handle 0 with its
snapshot of the deleted note (dropping a `SourceId` does not remove the
source). -/
def c2AfterDelete : UIState :=
  { active := none, liveTimers := [(0, dirtyNoteA)], nextTimerId := 1 }

/-- A concrete directory: "A.md" modified at 5, "B.md" modified at 3,
and an entry that fails to open, which the listing must skip. -/
def listStore : Store where
  createFile := fun _ => .ok ()
  writeFile := fun _ _ => .ok ()
  metaMtime := fun p => if p = "notes/A.md" then .ok (some 5) else .ok (some 3)
  openFile := fun p => if p = "notes/bad.md" then .error "permission denied" else .ok ()
  readFile := fun _ => .ok "body"
  removeFile := fun _ => .ok ()
  renameFile := fun _ _ => .ok ()
  pathExists := fun _ => false
  readDir := .ok ["notes/B.md", "notes/bad.md", "notes/A.md"]
  isFile := fun _ => true

lemma dval_digitChar (m : Nat) (h : m < 10) : dval (Nat.digitChar m) = m := by
  interval_cases m <;> rfl

lemma pushDigits_zero (n : Nat) : pushDigits 0 n = n := by
  induction n using Nat.strong_induction_on with
  | _ n ih =>
    rw [pushDigits]
    by_cases h : n < 10
    · simp [h]
    · simp only [h, if_false]
      rw [ih (n / 10) (Nat.div_lt_self (by omega) (by omega))]
      omega

lemma toDigitsCore_succ (b fuel n : Nat) (ds : List Char) :
    Nat.toDigitsCore b (fuel + 1) n ds =
      if n / b = 0 then Nat.digitChar (n % b) :: ds
      else Nat.toDigitsCore b fuel (n / b) (Nat.digitChar (n % b) :: ds) := rfl

lemma vfold_cons (a : Nat) (c : Char) (ds : List Char) :
    vfold a (c :: ds) = vfold (10 * a + dval c) ds := rfl

lemma vfold_toDigitsCore (fuel : Nat) :
    ∀ (n : Nat) (ds : List Char) (a : Nat), n < 10 ^ (fuel + 1) →
      vfold a (Nat.toDigitsCore 10 (fuel + 1) n ds) = vfold (pushDigits a n) ds := by
  induction fuel with
  | zero =>
    intro n ds a h
    have hn : n < 10 := by simpa using h
    have hdiv : n / 10 = 0 := Nat.div_eq_of_lt hn
    rw [toDigitsCore_succ, if_pos hdiv, vfold_cons, pushDigits, if_pos hn,
      Nat.mod_eq_of_lt hn, dval_digitChar n hn]
  | succ fuel ih =>
    intro n ds a h
    by_cases hdiv : n / 10 = 0
    · have hn : n < 10 := by omega
      rw [toDigitsCore_succ, if_pos hdiv, vfold_cons, pushDigits, if_pos hn,
        Nat.mod_eq_of_lt hn, dval_digitChar n hn]
    · have hge : 10 ≤ n := by
        by_contra hc
        exact hdiv (Nat.div_eq_of_lt (by omega))
      have hlt : n / 10 < 10 ^ (fuel + 1) := by
        rw [Nat.div_lt_iff_lt_mul (by omega : (0:Nat) < 10)]
        calc n < 10 ^ (fuel + 1 + 1) := h
        _ = 10 ^ (fuel + 1) * 10 := by ring
      rw [toDigitsCore_succ, if_neg hdiv, ih (n / 10) (Nat.digitChar (n % 10) :: ds) a hlt,
        vfold_cons, dval_digitChar (n % 10) (Nat.mod_lt n (by omega))]
      congr 1
      conv_rhs => rw [pushDigits]
      simp [show ¬ n < 10 by omega]

/-- Round trip: reading the decimal digit string of `n` gives back `n`. -/
lemma vfold_toDigits (n : Nat) : vfold 0 (Nat.toDigits 10 n) = n := by
  have hpow : n < 10 ^ (n + 1) := by
    calc n < 10 ^ n := Nat.lt_pow_self (by omega) n
    _ ≤ 10 ^ (n + 1) := Nat.pow_le_pow_right (by omega) (by omega)
  have := vfold_toDigitsCore n n [] 0 hpow
  rw [Nat.toDigits, this, pushDigits_zero]
  rfl

lemma repr_data (n : Nat) : (Nat.repr n).data = Nat.toDigits 10 n := rfl

/-- The decimal rendering of naturals (Rust `format`) is injective. -/
lemma nat_repr_injective : Function.Injective Nat.repr := by
  intro m n h
  have hd : Nat.toDigits 10 m = Nat.toDigits 10 n := by
    rw [← repr_data, ← repr_data, h]
  have := vfold_toDigits m
  rw [hd, vfold_toDigits n] at this
  exact this.symm

lemma toDigitsCore_length_ge (fuel : Nat) :
    ∀ (n : Nat) (ds : List Char),
      ds.length + 1 ≤ (Nat.toDigitsCore 10 (fuel + 1) n ds).length := by
  induction fuel with
  | zero =>
    intro n ds
    rw [toDigitsCore_succ]
    split
    · simp
    · simp [Nat.toDigitsCore]
  | succ fuel ih =>
    intro n ds
    rw [toDigitsCore_succ]
    split
    · simp
    · have h2 := ih (n / 10) (Nat.digitChar (n % 10) :: ds)
      simp only [List.length_cons] at h2
      omega

lemma repr_length_pos (n : Nat) : 1 ≤ (Nat.repr n).length := by
  have := toDigitsCore_length_ge n n []
  simpa [Nat.repr, Nat.toDigits, String.length, List.asString] using this

/-- The loop candidates are pairwise distinct for counters starting
at 1, so the existence check cannot conflate two iterations. -/
lemma candidateTitle_injOn (date : String) :
    ∀ n m, 1 ≤ n → 1 ≤ m → candidateTitle date n = candidateTitle date m → n = m := by
  intro n m hn hm h
  by_cases h1 : n = 1 <;> by_cases h2 : m = 1
  · omega
  · exfalso
    rw [candidateTitle, candidateTitle, if_pos h1, if_neg h2] at h
    have hlen := congrArg String.length h
    simp only [String.length_append] at hlen
    have := repr_length_pos m
    omega
  · exfalso
    rw [candidateTitle, candidateTitle, if_neg h1, if_pos h2] at h
    have hlen := congrArg String.length h
    simp only [String.length_append] at hlen
    have := repr_length_pos n
    omega
  · rw [candidateTitle, candidateTitle, if_neg h1, if_neg h2] at h
    have hd := congrArg String.data h
    simp only [String.data_append] at hd
    have hrepr : (Nat.repr n).data = (Nat.repr m).data := by
      have h3 := List.append_cancel_right hd
      exact List.append_cancel_left h3
    exact nat_repr_injective (congrArg String.mk hrepr)

/-- The existence-check loop returns the first free candidate at or
after its starting counter, provided a free candidate lies within the
fuel bound. -/
lemma genLoop_spec (existing : List String) (date : String) :
    ∀ (fuel n : Nat), (∃ k, k < fuel ∧ candidateTitle date (n + k) ∉ existing) →
      ∃ m, n ≤ m ∧ genLoop existing date fuel n = candidateTitle date m ∧
        candidateTitle date m ∉ existing ∧
        ∀ j, n ≤ j → j < m → candidateTitle date j ∈ existing := by
  intro fuel
  induction fuel with
  | zero =>
    intro n h
    obtain ⟨k, hk, _⟩ := h
    omega
  | succ fuel ih =>
    intro n h
    by_cases hmem : candidateTitle date n ∈ existing
    · rw [genLoop, if_pos hmem]
      obtain ⟨k, hk, hfree⟩ := h
      have hk0 : k ≠ 0 := by
        rintro rfl
        simp only [Nat.add_zero] at hfree
        exact hfree hmem
      obtain ⟨k', rfl⟩ : ∃ k', k = k' + 1 := ⟨k - 1, by omega⟩
      obtain ⟨m, hm1, hm2, hm3, hm4⟩ := ih (n + 1) ⟨k', by omega, by
        have : n + 1 + k' = n + (k' + 1) := by omega
        rw [this]; exact hfree⟩
      refine ⟨m, by omega, hm2, hm3, ?_⟩
      intro j hj1 hj2
      rcases Nat.eq_or_lt_of_le hj1 with rfl | hlt
      · exact hmem
      · exact hm4 j hlt hj2
    · rw [genLoop, if_neg hmem]
      exact ⟨n, le_refl n, rfl, hmem, fun j hj1 hj2 => absurd (lt_of_le_of_lt hj1 hj2) (lt_irrefl n)⟩

/-- Pigeonhole: among `existing.length + 1` successive candidates one is
not in `existing`, so the loop always terminates within its fuel. -/
lemma genLoop_adequate (existing : List String) (date : String) (n : Nat) (hn : 1 ≤ n) :
    ∃ k, k < existing.length + 1 ∧ candidateTitle date (n + k) ∉ existing := by
  by_contra hc
  push_neg at hc
  set L := existing.length with hL
  have hmem : ∀ k : Fin (L + 1), candidateTitle date (n + k.1) ∈ existing := fun k =>
    hc k.1 k.2
  have hinj : Function.Injective (fun k : Fin (L + 1) => candidateTitle date (n + k.1)) := by
    intro a b hab
    have := candidateTitle_injOn date (n + a.1) (n + b.1) (by omega) (by omega) hab
    exact Fin.ext (by omega)
  have hsub : Finset.univ.image (fun k : Fin (L + 1) => candidateTitle date (n + k.1)) ⊆
      existing.toFinset := by
    intro x hx
    simp only [Finset.mem_image] at hx
    obtain ⟨k, _, rfl⟩ := hx
    exact List.mem_toFinset.2 (hmem k)
  have hcard1 : (Finset.univ.image (fun k : Fin (L + 1) => candidateTitle date (n + k.1))).card
      = L + 1 := by
    rw [Finset.card_image_of_injective _ hinj, Finset.card_univ, Fintype.card_fin]
  have hcard2 := Finset.card_le_card hsub
  have hcard3 := existing.toFinset_card_le
  omega

/-- `takeBytes k` succeeds exactly when `k` bytes land on a character
boundary: some prefix of the list measures exactly `k` UTF-8 bytes. -/
lemma takeBytes_isSome_iff :
    ∀ (l : List Char) (k : Nat),
      (takeBytes k l).isSome = true ↔ ∃ n, n ≤ l.length ∧ byteLen (l.take n) = k := by
  intro l
  induction l with
  | nil =>
    intro k
    cases k with
    | zero => simp [takeBytes, byteLen]
    | succ k =>
      simp only [takeBytes, Option.isSome_none, Bool.false_eq_true, false_iff]
      rintro ⟨n, hn, hb⟩
      simp only [List.length_nil, Nat.le_zero] at hn
      subst hn
      simp [byteLen] at hb
  | cons c cs ih =>
    intro k
    cases k with
    | zero =>
      simp only [takeBytes, Option.isSome_some, true_iff]
      exact ⟨0, by simp, by simp [byteLen]⟩
    | succ k =>
      simp only [takeBytes]
      by_cases hsz : c.utf8Size ≤ k + 1
      · rw [if_pos hsz]
        rw [Option.isSome_map']
        rw [ih (k + 1 - c.utf8Size)]
        constructor
        · rintro ⟨n, hn, hb⟩
          refine ⟨n + 1, by simpa using hn, ?_⟩
          simp only [List.take_succ_cons, byteLen, List.map_cons, List.sum_cons]
          simp only [byteLen] at hb
          omega
        · rintro ⟨n, hn, hb⟩
          cases n with
          | zero => simp [byteLen] at hb
          | succ n =>
            refine ⟨n, by simpa using hn, ?_⟩
            simp only [List.take_succ_cons, byteLen, List.map_cons, List.sum_cons] at hb
            simp only [byteLen]
            omega
      · rw [if_neg hsz]
        simp only [Option.isSome_none, Bool.false_eq_true, false_iff]
        rintro ⟨n, hn, hb⟩
        cases n with
        | zero => simp [byteLen] at hb
        | succ n =>
          simp only [List.take_succ_cons, byteLen, List.map_cons, List.sum_cons] at hb
          omega

lemma pairwise_getElem_lt {α : Type} (R : α → α → Prop) (l : List α)
    (h : l.Pairwise R) (i j : Nat) (hi : i < l.length) (hj : j < l.length) (hij : i < j) :
    R l[i] l[j] :=
  List.pairwise_iff_getElem.1 h i j hi hj hij

/-- C5 counterexample.  The claim says `create` returns an error when
the title is empty; `Note::new` performs no title validation, so with a
store whose file creation succeeds, an empty title yields a successful
note whose file is named `.md`. -/
theorem C5_counterexample :
    Note.new okStore "notes" "" =
      .ok { path := "notes/.md", title := "", content := "", modified_time := some 7 } := by
  rfl

/-- C5 (amended): `create(title)` performs no validation of the title;
for every title, the empty one included, it fails only when file
creation or the metadata read fails, and otherwise creates the empty
file `{title}.md` and returns a note with that path and title, empty
content, and the modification time the file system reports. -/
theorem C5_create_contract (s : Store) (dir title : String) :
    (∀ e, s.createFile (mdPath dir title) = .error e →
      Note.new s dir title = .error ("Failed to create note file: " ++ e))
    ∧ (∀ mt, s.createFile (mdPath dir title) = .ok () →
        s.metaMtime (mdPath dir title) = .ok mt →
        Note.new s dir title =
          .ok { path := mdPath dir title, title := title, content := "",
                modified_time := mt }) := by
  constructor
  · intro e he
    simp [Note.new, he]
  · intro mt h1 h2
    simp [Note.new, h1, h2]

theorem C5_create_contract_witness :
    Note.new okStore "notes" "x" =
      .ok { path := "notes/x.md", title := "x", content := "",
            modified_time := some 7 } :=
  (C5_create_contract okStore "notes" "x").2 (some 7) rfl rfl

/-- C6: the rename contract.  (a) An empty (trimmed) new title is
rejected and the note is untouched.  (b) When a different file with the
target title exists, a collision error is returned and the note is
untouched.  (c) Otherwise, when the move and the metadata read succeed,
the file is moved and the in-memory path and title are updated.
(d) Renaming a note to its own current title bypasses the collision
check entirely: when the file operations succeed it is a no-op on path
and title (only the timestamp is re-read), and (e) any error it returns
comes from title validation or from the file system, never from the
collision branch. -/
theorem C6_rename_contract (s : Store) (dir : String) (n : Note) (new_title : String) :
    (rustTrim new_title = "" →
      Note.rename s dir n new_title = (.error "New title cannot be empty.", n))
    ∧ (¬ rustTrim new_title = "" → s.pathExists (mdPath dir new_title) = true →
        mdPath dir new_title ≠ n.path →
        Note.rename s dir n new_title =
          (.error ("A note named \"" ++ new_title ++ "\" already exists."), n))
    ∧ (∀ mt, ¬ rustTrim new_title = "" →
        (s.pathExists (mdPath dir new_title) = false ∨ mdPath dir new_title = n.path) →
        s.renameFile n.path (mdPath dir new_title) = .ok () →
        s.metaMtime (mdPath dir new_title) = .ok mt →
        Note.rename s dir n new_title =
          (.ok (),
           { n with path := mdPath dir new_title, title := new_title, modified_time := mt }))
    ∧ (∀ mt, n.path = mdPath dir n.title → ¬ rustTrim n.title = "" →
        s.renameFile n.path n.path = .ok () → s.metaMtime n.path = .ok mt →
        Note.rename s dir n n.title = (.ok (), { n with modified_time := mt }))
    ∧ (n.path = mdPath dir n.title → ∀ msg, (Note.rename s dir n n.title).1 = .error msg →
        msg = "New title cannot be empty."
        ∨ (∃ e, s.renameFile n.path n.path = .error e
            ∧ msg = "Failed to rename note file: " ++ e)
        ∨ (∃ e, s.metaMtime n.path = .error e
            ∧ msg = "Failed to get metadata after renaming: " ++ e)) := by
  refine ⟨?_, ?_, ?_, ?_, ?_⟩
  · intro h
    simp [Note.rename, h]
  · intro h1 h2 h3
    simp [Note.rename, h1, h2, h3, bne_iff_ne]
  · intro mt h1 h2 h3 h4
    rcases h2 with h2 | h2
    · simp [Note.rename, h1, h2, h3, h4]
    · rw [h2] at h3 h4
      simp [Note.rename, h1, h2, h3, h4]
  · intro mt hp h1 h2 h3
    have hpath : mdPath dir n.title = n.path := hp.symm
    simp only [Note.rename, if_neg h1, hpath, bne_self_eq_false, Bool.and_false,
      Bool.false_eq_true, ite_false, h2, h3]
  · intro hp msg h
    have hpath : mdPath dir n.title = n.path := hp.symm
    by_cases h1 : rustTrim n.title = ""
    · left
      rw [Note.rename, if_pos h1] at h
      simpa using h.symm
    · rw [Note.rename, if_neg h1] at h
      rw [hpath] at h
      simp only [bne_self_eq_false, Bool.and_false, Bool.false_eq_true, ite_false] at h
      cases hr : s.renameFile n.path n.path with
      | error e =>
        rw [hr] at h
        right; left
        exact ⟨e, rfl, by simpa using h.symm⟩
      | ok u =>
        rw [hr] at h
        cases hm : s.metaMtime n.path with
        | error e =>
          rw [hm] at h
          right; right
          exact ⟨e, rfl, by simpa using h.symm⟩
        | ok mt =>
          rw [hm] at h
          simp at h

theorem C6_rename_contract_witness :
    Note.rename okStore "notes" { path := "notes/A.md", title := "A", content := "c",
                                  modified_time := some 1 } "A" =
      (.ok (), { path := "notes/A.md", title := "A", content := "c",
                 modified_time := some 7 }) :=
  (C6_rename_contract okStore "notes"
      { path := "notes/A.md", title := "A", content := "c", modified_time := some 1 }
      "A").2.2.2.1 (some 7) rfl (by decide) rfl rfl

/-- C7: `generate_unique_title` returns `"Note {date}"` when that title
is free; in general it returns the first free candidate of the loop,
i.e. a candidate `m ≥ 1` (so `"Note {date}"` or `"Note {date} (m)"`
with `m ≥ 2`) that is not taken while every earlier candidate is taken.
It is a pure function of the existing title set and the date, hence
deterministic.  On the title set of P3 and that same date it yields
`"Note 2024-01-01 (3)"`. -/
theorem C7_generate_unique_title :
    (∀ (existing : List String) (date : String),
        ("Note " ++ date) ∉ existing →
          Note.generate_unique_title existing date = "Note " ++ date)
    ∧ (∀ (existing : List String) (date : String),
        ∃ m, 1 ≤ m ∧ Note.generate_unique_title existing date = candidateTitle date m ∧
          candidateTitle date m ∉ existing ∧
          ∀ j, 1 ≤ j → j < m → candidateTitle date j ∈ existing)
    ∧ Note.generate_unique_title ["Note 2024-01-01", "Note 2024-01-01 (2)"] "2024-01-01"
        = "Note 2024-01-01 (3)" := by
  have main : ∀ (existing : List String) (date : String),
      ∃ m, 1 ≤ m ∧ Note.generate_unique_title existing date = candidateTitle date m ∧
        candidateTitle date m ∉ existing ∧
        ∀ j, 1 ≤ j → j < m → candidateTitle date j ∈ existing := by
    intro existing date
    obtain ⟨m, hm1, hm2, hm3, hm4⟩ :=
      genLoop_spec existing date (existing.length + 1) 1
        (genLoop_adequate existing date 1 (le_refl 1))
    exact ⟨m, hm1, hm2, hm3, fun j hj1 hj2 => hm4 j hj1 hj2⟩
  refine ⟨?_, main, ?_⟩
  · intro existing date hfree
    obtain ⟨m, hm1, hm2, hm3, hm4⟩ := main existing date
    have hm : m = 1 := by
      by_contra hne
      have h1 : candidateTitle date 1 ∈ existing := hm4 1 (le_refl 1) (by omega)
      rw [candidateTitle, if_pos rfl] at h1
      exact hfree h1
    rw [hm2, hm, candidateTitle, if_pos rfl]
  · rfl

theorem C7_generate_unique_title_witness :
    Note.generate_unique_title ["Other"] "2025-05-05" = "Note 2025-05-05" :=
  C7_generate_unique_title.1 ["Other"] "2025-05-05" (by decide)

/-- C9 counterexample.  The scenario content contains thirteen
whitespace-separated words, so `count_words` (the number the handler
reports) is 13, not the 12 the claim states. -/
theorem C9_counterexample :
    count_words scenarioContent = 13 ∧ count_words scenarioContent ≠ 12 := by
  decide

/-- C9 (amended): after an Edit event whose content is the scenario
text, the reported word count is 13: every non-panicking run of the
changed handler on that content emits `setWordCount 13`. -/
theorem C9_word_count_reported :
    count_words scenarioContent = 13 ∧
    ∀ (st : UIState) (r : UIState × List Effect),
      onBufferChanged st false scenarioContent = some r →
        Effect.setWordCount 13 ∈ r.2 := by
  have hc : count_words scenarioContent = 13 := by decide
  refine ⟨hc, ?_⟩
  intro st r h
  unfold onBufferChanged at h
  simp only [Bool.false_eq_true, if_false] at h
  cases hact : st.active with
  | none =>
    rw [hact] at h
    simp only [Option.some.injEq] at h
    subst h
    simp [hc]
  | some a =>
    rw [hact] at h
    simp only at h
    split at h
    · exact absurd h (by simp)
    · simp only [Option.some.injEq] at h
      subst h
      simp [hc]

theorem C9_word_count_reported_witness :
    Effect.setWordCount 13 ∈
      (emptySession, [Effect.setWordCount (count_words scenarioContent)]).2 :=
  C9_word_count_reported.2 emptySession
    (emptySession, [Effect.setWordCount (count_words scenarioContent)]) rfl

/-- C10 counterexample.  For content whose first non-blank trimmed line
is 52 bytes of two-byte characters, byte index 47 is not a character
boundary, so the inline truncation `&title_text[0..47]` panics: the
candidate computation does not return a value (it is `none`), and the
whole changed handler aborts.  The claim that the truncation is total
for all UTF-8 content is false. -/
theorem C10_counterexample :
    firstNonBlankLine overlongAccentLine = some overlongAccentLine
    ∧ byteLen (rustTrim overlongAccentLine).data = 52
    ∧ titleCandidate overlongAccentLine = none
    ∧ onBufferChanged defaultTitledSession false overlongAccentLine = none := by
  decide

/-- C10 (amended): when the first non-blank trimmed line measures more
than 50 UTF-8 bytes, the candidate computation returns a value exactly
when some prefix of the line measures exactly 47 bytes (byte 47 falls on
a character boundary); otherwise the byte slice panics. -/
theorem C10_truncation_boundary (content line : String)
    (h1 : firstNonBlankLine content = some line)
    (h2 : 50 < byteLen (rustTrim line).data) :
    (titleCandidate content = none ↔
      ¬ ∃ k, k ≤ (rustTrim line).data.length ∧
          byteLen ((rustTrim line).data.take k) = 47) := by
  have h3 : 3 ≤ byteLen (rustTrim line).data := by omega
  rw [← takeBytes_isSome_iff]
  simp only [titleCandidate, h1, if_pos h3, if_pos h2]
  cases htb : takeBytes 47 (rustTrim line).data with
  | none => simp [htb]
  | some pre => simp [htb]

theorem C10_truncation_boundary_witness :
    (titleCandidate scenarioContent = none ↔
      ¬ ∃ k, k ≤ (rustTrim scenarioContent).data.length ∧
          byteLen ((rustTrim scenarioContent).data.take k) = 47) :=
  C10_truncation_boundary scenarioContent scenarioContent (by decide) (by decide)

/-- C3 counterexample.  All preconditions of the claim hold at this
input: the active title matches the default pattern, the first non-blank
trimmed line is 65 bytes long (≥ 3), and the derived candidate (first 47
bytes plus "...") is non-empty and differs from the current title.  Yet
the handler performs no rename: the resulting trace has no rename call
and the session title, path and note are unchanged apart from the edit
itself, because the rename-application block (ui.rs lines 701-732) is
commented out. -/
theorem C3_counterexample :
    strStartsWith defaultTitledNote.title "Note 20" = true
    ∧ titleCandidate scenarioContent =
        some (some "Hello world this is a longer first line used as...")
    ∧ ("Hello world this is a longer first line used as..." : String) ≠ "Note 2024-06-01"
    ∧ onBufferChanged defaultTitledSession false scenarioContent = some c3Result := by
  decide

/-- C3 (amended): the changed handler never performs a rename, whatever
the content and state: every non-panicking Edit leaves the session
title and path (and those of the working copy) unchanged and emits no
rename call.  The candidate is computed (and can panic, see C10) but its
only consumer is disabled code. -/
theorem C3_no_auto_rename (st : UIState) (a : ActiveNote) (content : String)
    (r : UIState × List Effect) (h1 : st.active = some a)
    (h2 : onBufferChanged st false content = some r) :
    (∃ a2, r.1.active = some a2 ∧ a2.title = a.title ∧ a2.path = a.path ∧
        a2.note.title = a.note.title ∧ a2.note.path = a.note.path)
    ∧ ∀ p t, Effect.renameCall p t ∉ r.2 := by
  unfold onBufferChanged at h2
  rw [h1] at h2
  simp only [Bool.false_eq_true, if_false] at h2
  cases ha : a.auto_save_source_id with
  | none =>
    rw [ha] at h2
    simp only at h2
    split at h2
    · exact absurd h2 (by simp)
    · simp only [Option.some.injEq] at h2
      subst h2
      exact ⟨⟨_, rfl, rfl, rfl, rfl, rfl⟩, by intro p t; simp⟩
  | some id =>
    rw [ha] at h2
    simp only at h2
    split at h2
    · exact absurd h2 (by simp)
    · simp only [Option.some.injEq] at h2
      subst h2
      exact ⟨⟨_, rfl, rfl, rfl, rfl, rfl⟩, by intro p t; simp⟩

theorem C3_no_auto_rename_witness :
    (∃ a2, c3Result.1.active = some a2 ∧ a2.title = "Note 2024-06-01"
        ∧ a2.path = "notes/Note 2024-06-01.md" ∧ a2.note.title = "Note 2024-06-01"
        ∧ a2.note.path = "notes/Note 2024-06-01.md")
    ∧ ∀ p t, Effect.renameCall p t ∉ c3Result.2 :=
  C3_no_auto_rename defaultTitledSession defaultTitledActive scenarioContent c3Result rfl
    (by decide)

/-- C1: flush-before-switch atomicity.  If the active session is dirty
and the synchronous save performed before acting on a row selection
fails, the selection is aborted: the active note and its dirty flag are
unchanged (only the already-cancelled timer handle is cleared), the
pending timer has been cancelled and removed from the live set, no note
is loaded from the store, and nothing is written into the editor. -/
theorem C1_flush_abort (s : Store) (dir : String) (st : UIState) (a : ActiveNote)
    (title e : String) (h1 : st.active = some a) (h2 : a.has_changes = true)
    (h3 : Note.save s a.note = .error e) :
    (onRowSelected s dir st (some title)).1.active = some { a with auto_save_source_id := none }
    ∧ (∀ t, Effect.setEditorText t ∉ (onRowSelected s dir st (some title)).2)
    ∧ (∀ p, Effect.loadCall p ∉ (onRowSelected s dir st (some title)).2)
    ∧ (∀ id, a.auto_save_source_id = some id →
        Effect.cancelTimer id ∈ (onRowSelected s dir st (some title)).2
        ∧ ∀ sn, (id, sn) ∉ (onRowSelected s dir st (some title)).1.liveTimers) := by
  cases ha : a.auto_save_source_id with
  | none =>
    refine ⟨?_, fun t => ?_, fun p => ?_, fun id hid => absurd hid (by simp)⟩
    · simp [onRowSelected, selectFlush, h1, h2, h3, ha]
    · simp [onRowSelected, selectFlush, h1, h2, h3, ha]
    · simp [onRowSelected, selectFlush, h1, h2, h3, ha]
  | some id0 =>
    refine ⟨?_, fun t => ?_, fun p => ?_, fun id hid => ?_⟩
    · simp [onRowSelected, selectFlush, h1, h2, h3, ha]
    · simp [onRowSelected, selectFlush, h1, h2, h3, ha]
    · simp [onRowSelected, selectFlush, h1, h2, h3, ha]
    · cases hid
      constructor
      · simp [onRowSelected, selectFlush, h1, h2, h3, ha]
      · intro sn
        simp [onRowSelected, selectFlush, h1, h2, h3, ha, removeTimer, List.mem_filter]

theorem C1_flush_abort_witness :
    (onRowSelected failWriteStore "notes" dirtySessionA (some "B")).1.active =
      some dirtyActiveANoTimer
    ∧ (∀ t, Effect.setEditorText t ∉ (onRowSelected failWriteStore "notes" dirtySessionA (some "B")).2)
    ∧ (∀ p, Effect.loadCall p ∉ (onRowSelected failWriteStore "notes" dirtySessionA (some "B")).2)
    ∧ (∀ id, dirtyActiveA.auto_save_source_id = some id →
        Effect.cancelTimer id ∈ (onRowSelected failWriteStore "notes" dirtySessionA (some "B")).2
        ∧ ∀ sn, (id, sn) ∉ (onRowSelected failWriteStore "notes" dirtySessionA (some "B")).1.liveTimers) :=
  C1_flush_abort failWriteStore "notes" dirtySessionA dirtyActiveA
    "B" "Failed to create note file: disk full" rfl rfl rfl

/-- C4 (amended): postcondition of the auto-save callback.  On save
success with the session still on the same path: if the current content
equals the snapshot, dirty is cleared, the timer handle is cleared, the
timestamp is refreshed, and a list refresh is triggered; if the content
has diverged, dirty is left as it was (so it remains true) and the
timestamp is still refreshed, but the timer handle is cleared as well —
the code sets it to `None` in both cases.  On save failure only the
status string is reported and the session is untouched. -/
theorem C4_auto_save_fire (s : Store) (st : UIState) (id : Nat) (snap snap2 : Note)
    (a : ActiveNote) (h1 : st.active = some a) (h2 : a.path = snap.path) :
    (Note.save s snap = .ok snap2 →
      ((a.note.content = snap.content → a.has_changes = true →
        (autoSaveFire s st id snap).1.active =
          some { a with has_changes := false, auto_save_source_id := none, note := { a.note with modified_time := snap2.modified_time } }
        ∧ Effect.refreshList ∈ (autoSaveFire s st id snap).2)
      ∧ (¬ a.note.content = snap.content →
        (autoSaveFire s st id snap).1.active =
          some { a with auto_save_source_id := none, note := { a.note with modified_time := snap2.modified_time } }
        ∧ Effect.refreshList ∉ (autoSaveFire s st id snap).2)))
    ∧ (∀ e, Note.save s snap = .error e →
        autoSaveFire s st id snap =
          ({ st with liveTimers := removeTimer st.liveTimers id },
           [Effect.saveCall snap.path, Effect.setStatus "Auto-save failed"])) := by
  constructor
  · intro hsave
    constructor
    · intro hceq hdirty
      constructor
      · simp [autoSaveFire, h1, h2, hsave, hceq, hdirty]
      · simp [autoSaveFire, h1, h2, hsave, hceq, hdirty]
    · intro hne
      constructor
      · simp [autoSaveFire, h1, h2, hsave, hne]
      · simp [autoSaveFire, h1, h2, hsave, hne]
  · intro e hsave
    simp [autoSaveFire, hsave]

/-- C4 counterexample.  When the stale callback (handle 3) fires with a
snapshot whose content has diverged from the working copy and the save
succeeds, the code still clears `auto_save_source_id` — the claim says
the handle (here the newer handle 5) is not cleared, but the result
holds `none`, not `some 5`.  Dirty does remain true. -/
theorem C4_counterexample :
    c4DivActive.note.content ≠ c4DivSnapshot.content
    ∧ (autoSaveFire okStore c4DivState 3 c4DivSnapshot).1.active.map
        (fun a => a.auto_save_source_id) = some none
    ∧ (autoSaveFire okStore c4DivState 3 c4DivSnapshot).1.active.map
        (fun a => a.auto_save_source_id) ≠ some (some 5)
    ∧ (autoSaveFire okStore c4DivState 3 c4DivSnapshot).1.active.map
        (fun a => a.has_changes) = some true := by
  decide

theorem C4_auto_save_fire_witness :
    (autoSaveFire okStore c4EqState 2 c4EqNote).1.active = some c4EqActiveAfter
    ∧ Effect.refreshList ∈ (autoSaveFire okStore c4EqState 2 c4EqNote).2 :=
  ((C4_auto_save_fire okStore c4EqState 2 c4EqNote c4EqSnap2 c4EqActive rfl rfl).1 rfl).1
    rfl rfl

/-- C2: the delete handler clears a dirty active session to Empty with
no flush (the full trace shows no save call), as the claim states — but
the pending auto-save timer is not cancelled, and when it later fires it
saves the snapshot of the deleted note, recreating `notes/A.md`.  The
claim that no save of the deleted file is ever attempted afterwards is
the documented intent (spec P5) and the missing cancellation is a slip
in the code. -/
theorem C2_delete_stray_write :
    onDeleteConfirmed okStore "notes" dirtySessionA "A" =
      (c2AfterDelete,
       [Effect.loadCall "notes/A.md", Effect.deleteCall "notes/A.md", Effect.refreshList,
        Effect.setEditorText "", Effect.setWindowTitle "Penscript", Effect.setStatus "Ready",
        Effect.setWordCount 0])
    ∧ (0, dirtyNoteA) ∈ c2AfterDelete.liveTimers
    ∧ Effect.saveCall "notes/A.md" ∈ (autoSaveFire okStore c2AfterDelete 0 dirtyNoteA).2 := by
  decide

lemma mem_insertSorted {α : Type} (le : α → α → Bool) (x a : α) :
    ∀ l, a ∈ insertSorted le x l ↔ a = x ∨ a ∈ l := by
  intro l
  induction l with
  | nil => simp [insertSorted]
  | cons y ys ih =>
    simp only [insertSorted]
    split
    · simp only [List.mem_cons, ih]
      tauto
    · simp only [List.mem_cons]

lemma pairwise_insertSorted {α : Type} (le : α → α → Bool)
    (htrans : ∀ a b c, le a b = true → le b c = true → le a c = true)
    (htotal : ∀ a b, le a b = true ∨ le b a = true) (x : α) :
    ∀ l, l.Pairwise (fun a b => le a b = true) →
      (insertSorted le x l).Pairwise (fun a b => le a b = true) := by
  intro l
  induction l with
  | nil =>
    intro _
    simp [insertSorted]
  | cons y ys ih =>
    intro h
    rw [List.pairwise_cons] at h
    obtain ⟨hy, hys⟩ := h
    simp only [insertSorted]
    split
    · rename_i hle
      rw [List.pairwise_cons]
      refine ⟨?_, ih hys⟩
      intro b hb
      rw [mem_insertSorted] at hb
      rcases hb with rfl | hb
      · exact hle
      · exact hy b hb
    · rename_i hnle
      have hxy : le x y = true := by
        rcases htotal x y with h | h
        · exact h
        · exact absurd h hnle
      rw [List.pairwise_cons]
      constructor
      · intro b hb
        simp only [List.mem_cons] at hb
        rcases hb with rfl | hb
        · exact hxy
        · exact htrans x y b hxy (hy b hb)
      · exact List.pairwise_cons.2 ⟨hy, hys⟩

lemma sortByStable_aux_pairwise {α : Type} (le : α → α → Bool)
    (htrans : ∀ a b c, le a b = true → le b c = true → le a c = true)
    (htotal : ∀ a b, le a b = true ∨ le b a = true) :
    ∀ (l acc : List α), acc.Pairwise (fun a b => le a b = true) →
      (l.foldl (fun acc x => insertSorted le x acc) acc).Pairwise
        (fun a b => le a b = true) := by
  intro l
  induction l with
  | nil => intro acc h; simpa using h
  | cons x xs ih =>
    intro acc h
    simp only [List.foldl_cons]
    exact ih _ (pairwise_insertSorted le htrans htotal x acc h)

lemma sortByStable_pairwise {α : Type} (le : α → α → Bool)
    (htrans : ∀ a b c, le a b = true → le b c = true → le a c = true)
    (htotal : ∀ a b, le a b = true ∨ le b a = true) (l : List α) :
    (sortByStable le l).Pairwise (fun a b => le a b = true) :=
  sortByStable_aux_pairwise le htrans htotal l [] (by simp)

lemma sortByStable_aux_mem {α : Type} (le : α → α → Bool) (a : α) :
    ∀ (l acc : List α),
      a ∈ l.foldl (fun acc x => insertSorted le x acc) acc ↔ a ∈ acc ∨ a ∈ l := by
  intro l
  induction l with
  | nil => intro acc; simp
  | cons x xs ih =>
    intro acc
    simp only [List.foldl_cons, ih, mem_insertSorted, List.mem_cons]
    tauto

lemma mem_sortByStable {α : Type} (le : α → α → Bool) (a : α) (l : List α) :
    a ∈ sortByStable le l ↔ a ∈ l := by
  rw [sortByStable, sortByStable_aux_mem]
  simp

/-- C8: recency-ordered listing with partial-failure tolerance.
`get_all` succeeds whenever the directory read succeeds; the returned
list is sorted by `modified_time` descending (by the `None < Some`
ordering of the Rust comparison), so a note with a strictly later
timestamp always appears before one with an earlier timestamp; the list
holds exactly the eligible entries whose load succeeded, entries that
fail to load being skipped rather than failing the listing; and a
successful save refreshes the saved note's `modified_time` from the
file system, which is what the ordering keys on. -/
theorem C8_list_all (s : Store) (entries : List FsPath) (l : List Note)
    (h0 : s.readDir = .ok entries) (h1 : Note.get_all s = .ok l) :
    (∀ (i j : Nat) (hi : i < l.length) (hj : j < l.length), i < j →
        okey (l.get ⟨j, hj⟩).modified_time ≤ okey (l.get ⟨i, hi⟩).modified_time)
    ∧ (∀ (i j : Nat) (hi : i < l.length) (hj : j < l.length),
        okey (l.get ⟨j, hj⟩).modified_time < okey (l.get ⟨i, hi⟩).modified_time → i < j)
    ∧ (∀ n : Note, n ∈ l ↔ ∃ p, p ∈ entries ∧ eligibleEntry s p = true ∧ Note.load s p = .ok n)
    ∧ (∀ (n n2 : Note), Note.save s n = .ok n2 →
        ∃ mt, s.metaMtime n.path = .ok mt ∧ n2 = { n with modified_time := mt }) := by
  have hl : l = sortByStable (fun a b => okey b.modified_time ≤ okey a.modified_time)
      (entries.filterMap fun p =>
        if eligibleEntry s p then (Note.load s p).toOption else none) := by
    unfold Note.get_all at h1
    rw [h0] at h1
    simpa using h1.symm
  have hpw : l.Pairwise (fun a b : Note =>
      okey b.modified_time ≤ okey a.modified_time) := by
    rw [hl]
    have htrans : ∀ (a b c : Note),
        (decide (okey b.modified_time ≤ okey a.modified_time)) = true →
        (decide (okey c.modified_time ≤ okey b.modified_time)) = true →
        (decide (okey c.modified_time ≤ okey a.modified_time)) = true := by
      intro a b c hab hbc
      simp only [decide_eq_true_eq] at *
      omega
    have htotal : ∀ (a b : Note),
        (decide (okey b.modified_time ≤ okey a.modified_time)) = true ∨
        (decide (okey a.modified_time ≤ okey b.modified_time)) = true := by
      intro a b
      simp only [decide_eq_true_eq]
      omega
    have h := sortByStable_pairwise _ htrans htotal (entries.filterMap fun p =>
      if eligibleEntry s p then (Note.load s p).toOption else none)
    exact h.imp (fun hab => by simpa using hab)
  have part1 : ∀ (i j : Nat) (hi : i < l.length) (hj : j < l.length), i < j →
      okey (l.get ⟨j, hj⟩).modified_time ≤ okey (l.get ⟨i, hi⟩).modified_time := by
    intro i j hi hj hij
    have := pairwise_getElem_lt _ l hpw i j hi hj hij
    simpa using this
  refine ⟨part1, ?_, ?_, ?_⟩
  · intro i j hi hj hlt
    by_contra hc
    push_neg at hc
    rcases Nat.eq_or_lt_of_le hc with rfl | hji
    · omega
    · have := part1 j i hj hi hji
      omega
  · intro n
    rw [hl, mem_sortByStable, List.mem_filterMap]
    constructor
    · rintro ⟨p, hp, hf⟩
      by_cases he : eligibleEntry s p = true
      · rw [if_pos he] at hf
        refine ⟨p, hp, he, ?_⟩
        cases hload : Note.load s p with
        | error e => rw [hload] at hf; exact absurd hf (by simp [Except.toOption])
        | ok m =>
          rw [hload] at hf
          simp only [Except.toOption, Option.some.injEq] at hf
          rw [hf]
      · rw [if_neg he] at hf
        exact absurd hf (by simp)
    · rintro ⟨p, hp, he, hload⟩
      exact ⟨p, hp, by rw [if_pos he, hload]; rfl⟩
  · intro n n2 hsave
    unfold Note.save at hsave
    cases hc : s.createFile n.path with
    | error e => rw [hc] at hsave; exact absurd hsave (by simp)
    | ok u =>
      rw [hc] at hsave
      cases hw : s.writeFile n.path n.content with
      | error e => rw [hw] at hsave; exact absurd hsave (by simp)
      | ok u2 =>
        rw [hw] at hsave
        cases hm : s.metaMtime n.path with
        | error e => rw [hm] at hsave; exact absurd hsave (by simp)
        | ok mt =>
          rw [hm] at hsave
          simp only [Except.ok.injEq] at hsave
          exact ⟨mt, rfl, hsave.symm⟩

theorem C8_list_all_witness :
    Note.mk "notes/A.md" "A" "body" (some 5) ∈
      [Note.mk "notes/A.md" "A" "body" (some 5), Note.mk "notes/B.md" "B" "body" (some 3)] ↔
      ∃ p, p ∈ ["notes/B.md", "notes/bad.md", "notes/A.md"] ∧ eligibleEntry listStore p = true ∧
        Note.load listStore p = .ok (Note.mk "notes/A.md" "A" "body" (some 5)) :=
  (C8_list_all listStore ["notes/B.md", "notes/bad.md", "notes/A.md"]
    [Note.mk "notes/A.md" "A" "body" (some 5), Note.mk "notes/B.md" "B" "body" (some 3)]
    rfl (by decide)).2.2.1 (Note.mk "notes/A.md" "A" "body" (some 5))
